import Mathlib

/-!
Shallow embedding of the Junction chain-testing tool
(src/junction-bridgev1.2.0/main.go, second program variant, which supersedes
the first and contains the two-phase session-state machine). Pure Lean
functions model the data flow of the Go functions: the process environment is
a total map (Go os.Getenv returns "" for unset names), standard input is a
list of lines consumed in order, and the side effects of a run (subprocess
invocations, error prints, state-file deletion) are an explicit event list.
-/

namespace JunctionBridge

/-- A process environment. Go os.Getenv returns the empty string for an
unset variable, so unset and empty are indistinguishable, exactly as in the
source (getEnv tests `value != ""`). -/
def Env : Type := String → String

/-- os.Setenv: later settings shadow earlier ones. -/
def Env.set (env : Env) (key value : String) : Env :=
  fun k => if k = key then value else env k

/-- The environment in which no variable is set. -/
def emptyEnv : Env := fun _ => ""

/-- getEnv from main.go: the environment value if nonempty, else the default. -/
def getEnv (env : Env) (key defaultValue : String) : String :=
  if env key ≠ "" then env key else defaultValue

/-- The character class trimmed by Go strings.TrimSpace (unicode.IsSpace). -/
def isGoSpace (c : Char) : Bool :=
  c.val = 9 || c.val = 10 || c.val = 11 || c.val = 12 || c.val = 13 ||
  c.val = 32 || c.val = 0x85 || c.val = 0xA0 || c.val = 0x1680 ||
  (0x2000 ≤ c.val && c.val ≤ 0x200A) || c.val = 0x2028 || c.val = 0x2029 ||
  c.val = 0x202F || c.val = 0x205F || c.val = 0x3000

/-- Go strings.TrimSpace: drop leading and trailing white space. -/
def trimSpace (s : String) : String :=
  String.mk (((s.toList.dropWhile isGoSpace).reverse.dropWhile isGoSpace).reverse)

/-- Go strings.ToLower, restricted to ASCII case mapping (every input the
tool compares after lowering is an ASCII answer such as "y"/"yes"). -/
def toLower (s : String) : String :=
  String.mk (s.toList.map Char.toLower)

/-- Go strings.Split with a one-character separator, on character lists
(every separator in this program — "," in the worker list, "=" in .env
lines, the line separator — is a single character). Split of the empty
string is the one-element list holding the empty piece, as in Go. -/
def splitChar (sep : Char) : List Char → List (List Char)
  | [] => [[]]
  | c :: rest =>
      let r := splitChar sep rest
      if c = sep then [] :: r
      else
        match r with
        | [] => [[c]]
        | h :: t => (c :: h) :: t

/-- Go strings.Split(s, sep) for a one-character sep, as strings. -/
def splitOnChar (sep : Char) (s : String) : List String :=
  (splitChar sep s.toList).map String.mk

/-- Splitting at the first "=" of a line, if any: the pieces of Go
strings.SplitN(s, "=", 2). -/
def splitFirstEq : List Char → Option (List Char × List Char)
  | [] => none
  | c :: rest =>
      if c = '=' then some ([], rest)
      else (splitFirstEq rest).map (fun p => (c :: p.1, p.2))

/-- Go strings.HasPrefix(s, "#"). -/
def startsWithHash (s : String) : Bool :=
  match s.toList with
  | c :: _ => c = '#'
  | [] => false

/-- One bufio ReadString call on standard input: the next line, or the empty
string once input is exhausted (EOF returns an empty partial read, and the
source discards the error). -/
def readLine : List String → String × List String
  | [] => ("", [])
  | l :: rest => (l, rest)

/-- Go strconv.Atoi on a digit run (fold of decimal digits; none on any
non-digit). -/
def digitsToNat (l : List Char) : Option Nat :=
  l.foldl
    (fun acc c =>
      match acc with
      | none => none
      | some n => if c.isDigit then some (n * 10 + (c.toNat - 48)) else none)
    (some 0)

/-- Go strconv.Atoi: optional sign then a nonempty digit run, otherwise an
error (modelled as none; the int64 overflow bound is not modelled — no claim
involves durations near 2^63). -/
def goAtoi (s : String) : Option Int :=
  match s.toList with
  | [] => none
  | '+' :: rest =>
      if rest = [] then none else (digitsToNat rest).map Int.ofNat
  | '-' :: rest =>
      if rest = [] then none else (digitsToNat rest).map (fun n => -(n : Int))
  | l => (digitsToNat l).map Int.ofNat

/-- Observable effects of a run: junctiond (or shell) subprocess invocations
with their full argument vector, error messages printed to the console,
sleeps, and deletion of the session-state file (clearState). -/
inductive Event where
  | execCmd (argv : List String)
  | printErr (msg : String)
  | sleepSeconds (d : Int)
  | clearStateEv
  deriving DecidableEq, Repr

/-- waitForVotingPeriod from main.go: resolve the duration from the
VOTING_PERIOD variable (default 600 on absence or parse failure, the
interactive prompt likewise defaulting to 600), sleep, then query proposal
status once through the junctiond CLI. -/
def waitForVotingPeriod (env : Env) (stdin : List String) :
    List Event × List String :=
  let envDuration := getEnv env "VOTING_PERIOD" ""
  let (duration, stdin) :=
    if envDuration ≠ "" then
      match goAtoi envDuration with
      | some d => (d, stdin)
      | none => (600, stdin)
    else
      let (line, rest) := readLine stdin
      let durationInput := trimSpace line
      if durationInput ≠ "" then
        match goAtoi durationInput with
        | some d => (d, rest)
        | none => (600, rest)
      else (600, rest)
  ([Event.sleepSeconds duration,
    Event.execCmd ["./build/junctiond", "query", "gov", "proposals",
      "--output", "json"]], stdin)

/-- voteOnProposal from main.go: read a proposal id (required), resolve the
vote either from the VOTE_OPTION variable (taken verbatim) or from the
interactive 1-4 menu (anything else is rejected), invoke the junctiond vote
transaction, then optionally wait for the voting period. -/
def voteOnProposal (env : Env) (stdin : List String) :
    List Event × List String :=
  let (idLine, stdin) := readLine stdin
  let proposalID := trimSpace idLine
  if proposalID = "" then
    ([Event.printErr "❌ Proposal ID is required"], stdin)
  else
    let envVote := getEnv env "VOTE_OPTION" ""
    let sel : Option String × List String :=
      if envVote ≠ "" then (some envVote, stdin)
      else
        let (optLine, rest) := readLine stdin
        let voteOption := trimSpace optLine
        (if voteOption = "1" then some "yes"
         else if voteOption = "2" then some "no"
         else if voteOption = "3" then some "no_with_veto"
         else if voteOption = "4" then some "abstain"
         else none, rest)
    match sel with
    | (none, stdin) => ([Event.printErr "❌ Invalid vote option"], stdin)
    | (some vote, stdin) =>
      let proposerKey := getEnv env "PROPOSER_KEY" "test1"
      let chainID := getEnv env "CHAIN_ID" "junction"
      let voteCmd := Event.execCmd ["./build/junctiond", "tx", "gov", "vote",
        proposalID, vote, "--from", proposerKey, "--keyring-backend", "os",
        "--chain-id", chainID, "--gas", "auto", "--gas-adjustment", "1.5"]
      let (waitLine, stdin) := readLine stdin
      let waitInput := trimSpace (toLower waitLine)
      if waitInput = "y" ∨ waitInput = "yes" then
        let (waitEvents, stdin) := waitForVotingPeriod env stdin
        (voteCmd :: waitEvents, stdin)
      else ([voteCmd], stdin)

/-- submitProposal from main.go (second variant): invoke the junctiond
submit-proposal transaction (flags --chain-id and --fees), then optionally
hand over to the vote step on a y/yes answer. -/
def submitProposal (env : Env) (stdin : List String) :
    List Event × List String :=
  let proposerKey := getEnv env "PROPOSER_KEY" "test1"
  let chainID := getEnv env "CHAIN_ID" "junction"
  let fees := getEnv env "PROPOSAL_FEES" "100uamf"
  let submitCmd := Event.execCmd ["./build/junctiond", "tx", "gov",
    "submit-proposal", "proposal.json", "--from", proposerKey,
    "--chain-id", chainID, "--fees", fees, "--keyring-backend", "os",
    "--gas", "auto", "--gas-adjustment", "1.5"]
  let (voteLine, stdin) := readLine stdin
  let voteInput := trimSpace (toLower voteLine)
  if voteInput = "y" ∨ voteInput = "yes" then
    let (voteEvents, stdin) := voteOnProposal env stdin
    (submitCmd :: voteEvents, stdin)
  else ([submitCmd], stdin)

/-- The TestingState record persisted in testing_state.json, field for field
as in main.go (the Go zero value of every field is "" / nil / false). -/
structure TestingState where
  phase : String
  bridgeWorkers : List String
  contractAddress : String
  proposalTitle : String
  proposalSummary : String
  proposalDetails : String
  proposalForumURL : String
  ipfsCID : String
  proposalCreated : Bool
  chainRunning : Bool
  proposalSubmitted : Bool
  deriving DecidableEq, Repr

/-- The Go zero value of TestingState: what `var state TestingState` starts
from before json.Unmarshal fills it. -/
def TestingState.zero : TestingState :=
  ⟨"", [], "", "", "", "", "", "", false, false, false⟩

/-- A JSON document tree (numbers as integers suffice for this development:
no claim inspects a fractional number). -/
inductive Json where
  | null
  | bool (b : Bool)
  | num (n : Int)
  | str (s : String)
  | arr (elems : List Json)
  | obj (fields : List (String × Json))
  deriving Repr

/-- Marshalling of TestingState by json.MarshalIndent: the struct fields in
declaration order under their json tags (document level; the byte rendering
of the document is the Go standard library). -/
def TestingState.toJson (s : TestingState) : Json :=
  Json.obj [
    ("phase", Json.str s.phase),
    ("bridge_workers", Json.arr (s.bridgeWorkers.map Json.str)),
    ("contract_address", Json.str s.contractAddress),
    ("proposal_title", Json.str s.proposalTitle),
    ("proposal_summary", Json.str s.proposalSummary),
    ("proposal_details", Json.str s.proposalDetails),
    ("proposal_forum_url", Json.str s.proposalForumURL),
    ("ipfs_cid", Json.str s.ipfsCID),
    ("proposal_created", Json.bool s.proposalCreated),
    ("chain_running", Json.bool s.chainRunning),
    ("proposal_submitted", Json.bool s.proposalSubmitted)]

/-- Field lookup in a JSON object, last binding winning as in Go
json.Unmarshal (non-objects have no fields). -/
def Json.lookupKey (j : Json) (key : String) : Option Json :=
  match j with
  | Json.obj fields =>
      fields.foldl (fun acc kv => if kv.1 = key then some kv.2 else acc) none
  | _ => none

/-- Decoding of a string field: a missing key leaves the Go zero value "". -/
def Json.asString : Option Json → String
  | some (Json.str s) => s
  | _ => ""

/-- Decoding of a bool field: a missing key leaves the Go zero value false. -/
def Json.asBool : Option Json → Bool
  | some (Json.bool b) => b
  | _ => false

/-- Decoding of a []string field: a missing key leaves the Go zero value
nil, modelled as the empty list. -/
def Json.asStringList : Option Json → List String
  | some (Json.arr elems) =>
      elems.map (fun j => match j with | Json.str s => s | _ => "")
  | _ => []

/-- Unmarshalling of TestingState by json.Unmarshal on a parsed document:
each tagged field is looked up by key, absent keys keeping the zero value.
(Type-mismatched values make the Go decoder error; only well-typed documents
arise in this development, so the mismatch branch is folded into the zero
default.) -/
def TestingState.fromJson (j : Json) : TestingState :=
  { phase := Json.asString (j.lookupKey "phase"),
    bridgeWorkers := Json.asStringList (j.lookupKey "bridge_workers"),
    contractAddress := Json.asString (j.lookupKey "contract_address"),
    proposalTitle := Json.asString (j.lookupKey "proposal_title"),
    proposalSummary := Json.asString (j.lookupKey "proposal_summary"),
    proposalDetails := Json.asString (j.lookupKey "proposal_details"),
    proposalForumURL := Json.asString (j.lookupKey "proposal_forum_url"),
    ipfsCID := Json.asString (j.lookupKey "ipfs_cid"),
    proposalCreated := Json.asBool (j.lookupKey "proposal_created"),
    chainRunning := Json.asBool (j.lookupKey "chain_running"),
    proposalSubmitted := Json.asBool (j.lookupKey "proposal_submitted") }

/-- What reading testing_state.json can yield: the file is absent (or
unreadable), present but rejected by json.Unmarshal, or present and parsed
as a document. -/
inductive FileRead where
  | absent
  | unparseable
  | doc (j : Json)

/-- saveState from main.go, at document level: the marshalled record that is
written to testing_state.json. -/
def saveState (s : TestingState) : Json := s.toJson

/-- loadState from main.go: a read error yields the record with phase
"setup" and zero values elsewhere; a parse error is ignored (the
json.Unmarshal error is discarded), leaving the zero-valued record; a parsed
document is unmarshalled. -/
def loadState : FileRead → TestingState
  | FileRead.absent => { TestingState.zero with phase := "setup" }
  | FileRead.unparseable => TestingState.zero
  | FileRead.doc j => TestingState.fromJson j

/-- Which top-level sequence main runs after loading the session state. -/
inductive Dispatch where
  | chainSetup
  | proposalSubmission
  deriving DecidableEq, Repr

/-- The dispatch in main: the submission sequence exactly when the loaded
phase field equals "proposal_submission", the setup sequence otherwise. -/
def mainDispatch (st : TestingState) : Dispatch :=
  if st.phase = "proposal_submission" then Dispatch.proposalSubmission
  else Dispatch.chainSetup

/-- handleProposalSubmission from main.go: abort (without touching the state
file) when no proposal was recorded; otherwise submit, offer a vote, and
clear the session state at the end of the phase whatever the user answered. -/
def handleProposalSubmission (env : Env) (st : TestingState)
    (stdin : List String) : List Event × List String :=
  if st.proposalCreated = false then
    ([Event.printErr "❌ No proposal found. Please run the setup phase first."],
      stdin)
  else
    let (submitEvents, stdin) := submitProposal env stdin
    let (voteLine, stdin) := readLine stdin
    let voteInput := trimSpace (toLower voteLine)
    let (voteEvents, stdin) :=
      if voteInput = "y" ∨ voteInput = "yes" then voteOnProposal env stdin
      else ([], stdin)
    (submitEvents ++ voteEvents ++ [Event.clearStateEv], stdin)

/-- The ChainConfig record from main.go. -/
structure ChainConfig where
  Moniker : String
  ChainID : String
  Denom : String
  KeyName : String
  Amount : String
  ValidatorStake : String
  GasPrices : String
  MinimumGasPrices : String
  deriving DecidableEq, Repr

/-- loadConfig from main.go: every field from the environment with its
default. -/
def loadConfig (env : Env) : ChainConfig :=
  { Moniker := getEnv env "MONIKER" "junction-testing",
    ChainID := getEnv env "CHAIN_ID" "junction",
    Denom := getEnv env "DENOM" "uamf",
    KeyName := getEnv env "KEY_NAME" "test1",
    Amount := getEnv env "AMOUNT" "100000000000uamf",
    ValidatorStake := getEnv env "VALIDATOR_STAKE" "10000000000uamf",
    GasPrices := getEnv env "GAS_PRICES" "0.0025uamf",
    MinimumGasPrices := getEnv env "MINIMUM_GAS_PRICES" "0.00025uamf" }

/-- One line of the .env file as processed by loadEnvFile: trim, skip blank
lines and # comments, split on the first "=" (SplitN with limit 2), set the
trimmed key to the trimmed value; lines without "=" yield one piece and are
ignored. -/
def applyEnvLine (env : Env) (rawLine : String) : Env :=
  let line := trimSpace rawLine
  if line = "" then env
  else if startsWithHash line then env
  else
    match splitFirstEq line.toList with
    | some (k, v) => env.set (trimSpace (String.mk k)) (trimSpace (String.mk v))
    | none => env

/-- loadEnvFile from main.go: fold the lines of the file content into the
process environment via os.Setenv. -/
def loadEnvFile (env : Env) (content : String) : Env :=
  (splitOnChar '\n' content).foldl applyEnvLine env

/-- The startup portion of main that the later steps consume: the config
record and the environment as it stands after the optional .env file load. -/
structure Startup where
  config : ChainConfig
  envAfter : Env

/-- The first statements of main, in source order: loadConfig runs on the
process environment first, and only afterwards is the .env file (when
present) folded into the environment used by all later getEnv lookups. -/
def mainStartup (env0 : Env) (dotEnv : Option String) : Startup :=
  let config := loadConfig env0
  let envAfter :=
    match dotEnv with
    | some content => loadEnvFile env0 content
    | none => env0
  ⟨config, envAfter⟩

/-- The comma-split-and-trim applied to a bridge-workers string (env or
interactive): Split on "," then TrimSpace each piece, keeping order and
keeping empty pieces. -/
def splitTrim (s : String) : List String :=
  (splitOnChar ',' s).map trimSpace

/-- The metadata.json document built by createParameterChangeProposal. -/
structure ProposalMetadata where
  title : String
  authors : List String
  summary : String
  details : String
  proposalForumURL : String
  voteOptionContext : String
  deriving DecidableEq, Repr

/-- The params block of the single proposal message. -/
structure ProposalMsgParams where
  bridgeWorkers : List String
  bridgeContractAddress : String
  deriving DecidableEq, Repr

/-- One message of the proposal document. -/
structure ProposalMessage where
  type : String
  authority : String
  params : ProposalMsgParams
  deriving DecidableEq, Repr

/-- The proposal.json document of the second variant. -/
structure Proposal where
  messages : List ProposalMessage
  metadata : String
  deposit : String
  title : String
  summary : String
  expedited : Bool
  deriving DecidableEq, Repr

/-- What a run of createParameterChangeProposal produces: metadata.json is
always written once the prompts are past; proposal.json only when an IPFS
CID was obtained (the interactive path aborts on an empty CID); the unread
rest of standard input is threaded onwards. -/
structure CreateProposalRun where
  metadataDoc : ProposalMetadata
  proposal : Option Proposal
  remaining : List String

/-- createParameterChangeProposal from main.go (second variant): bridge
workers and contract address from the environment or interactively (with
test placeholders on empty input); title, summary, details and forum URL
from an environment default overridable by a nonempty interactive answer;
then the IPFS CID from the environment or interactively (abort on empty);
finally the proposal document with metadata "ipfs://" ++ CID, the fixed
message type, authority, deposit and expedited flag. -/
def createParameterChangeProposal (env : Env) (config : ChainConfig)
    (stdin : List String) : CreateProposalRun :=
  let envWorkers := getEnv env "BRIDGE_WORKERS" ""
  let envContract := getEnv env "BRIDGE_CONTRACT_ADDRESS" ""
  let (bridgeWorkers, stdin) :=
    if envWorkers ≠ "" then (splitTrim envWorkers, stdin)
    else
      let (line, rest) := readLine stdin
      let workersInput := trimSpace line
      if workersInput ≠ "" then (splitTrim workersInput, rest)
      else (["air1abc...", "air1def...", "air1ghi..."], rest)
  let (contractAddress, stdin) :=
    if envContract ≠ "" then (envContract, stdin)
    else
      let (line, rest) := readLine stdin
      let contractInput := trimSpace line
      if contractInput ≠ "" then (contractInput, rest)
      else ("0x1234567890123456789012345678901234567890", rest)
  let (titleLine, stdin) := readLine stdin
  let titleInput := trimSpace titleLine
  let proposalTitle :=
    if titleInput ≠ "" then titleInput
    else getEnv env "PROPOSAL_TITLE" "Update EVM Bridge Authorized Unlockers"
  let (summaryLine, stdin) := readLine stdin
  let summaryInput := trimSpace summaryLine
  let proposalSummary :=
    if summaryInput ≠ "" then summaryInput
    else getEnv env "PROPOSAL_SUMMARY" "This proposal aims to update the EVM bridge authorized unlockers list and add new bridge contract addresses to enhance the bridge's security and functionality."
  let (detailsLine, stdin) := readLine stdin
  let detailsInput := trimSpace detailsLine
  let proposalDetails :=
    if detailsInput ≠ "" then detailsInput
    else getEnv env "PROPOSAL_DETAILS" "The EVM bridge requires regular updates to its authorized unlockers list to maintain security and add new trusted validators. This proposal adds the following addresses to the authorized unlockers list and updates the bridge contract address to ensure proper bridge operations."
  let (forumLine, stdin) := readLine stdin
  let forumInput := trimSpace forumLine
  let proposalForumURL :=
    if forumInput ≠ "" then forumInput
    else getEnv env "PROPOSAL_FORUM_URL" "https://forum.junction.network/t/update-evm-bridge-authorized-unlockers"
  let metadataDoc : ProposalMetadata :=
    { title := proposalTitle,
      authors := [config.KeyName],
      summary := proposalSummary,
      details := proposalDetails,
      proposalForumURL := proposalForumURL,
      voteOptionContext := "yes,no,abstain" }
  let envCID := getEnv env "IPFS_CID" ""
  let (cidInput, stdin) :=
    if envCID ≠ "" then (envCID, stdin)
    else
      let (line, rest) := readLine stdin
      (trimSpace line, rest)
  if cidInput = "" then ⟨metadataDoc, none, stdin⟩
  else
    let proposal : Proposal :=
      { messages := [{ type := "/junction.evmbridge.MsgUpdateParams",
                       authority := "air10d07y265gmmuvt4z0w9aw880jnsr700jszsute",
                       params := ⟨bridgeWorkers, contractAddress⟩ }],
        metadata := "ipfs://" ++ cidInput,
        deposit := "1000000uamf",
        title := proposalTitle,
        summary := proposalSummary,
        expedited := true }
    ⟨metadataDoc, some proposal, stdin⟩

/-- Replacement of one key in a jq object: an existing key keeps its
position and gets the new value, a missing key is appended at the end. -/
def setField : List (String × Json) → String → Json → List (String × Json)
  | [], key, v => [(key, v)]
  | (k, w) :: rest, key, v =>
      if k = key then (k, v) :: rest else (k, w) :: setField rest key v

/-- First-match object lookup used when descending a jq path (genesis
documents carry no duplicate keys). -/
def lookupField : List (String × Json) → String → Option Json
  | [], _ => none
  | (k, w) :: rest, key => if k = key then some w else lookupField rest key

/-- The jq kind name used in its cannot-index error message. -/
def Json.kindName : Json → String
  | Json.null => "null"
  | Json.bool _ => "boolean"
  | Json.num _ => "number"
  | Json.str _ => "string"
  | Json.arr _ => "array"
  | Json.obj _ => "object"

/-- The jq path assignment `.k1.k2...kn = v`: descending an object follows
the key (a missing key denotes null), null is autovivified into an object
holding just the new spine, and any other value on the path is a
cannot-index error. This is the semantics of the jq program run by the
genesis-modification step. -/
def setPath (j : Json) (path : List String) (v : Json) : Except String Json :=
  match path with
  | [] => Except.ok v
  | key :: rest =>
    match j with
    | Json.obj fields =>
        let child := (lookupField fields key).getD Json.null
        match setPath child rest v with
        | Except.error e => Except.error e
        | Except.ok inner => Except.ok (Json.obj (setField fields key inner))
    | Json.null =>
        match setPath Json.null rest v with
        | Except.error e => Except.error e
        | Except.ok inner => Except.ok (Json.obj [(key, inner)])
    | other =>
        Except.error ("Cannot index " ++ other.kindName ++ " with \"" ++ key ++ "\"")

/-- Reading a value at a key path in a document. -/
def getPath (j : Json) : List String → Option Json
  | [] => some j
  | key :: rest =>
    match j with
    | Json.obj fields =>
      match lookupField fields key with
      | some child => getPath child rest
      | none => none
    | _ => none

/-- Whether a value can be descended through by a jq path assignment: an
object is indexed, null is autovivified into an object; any other value
(boolean, number, string, array) raises the cannot-index error. -/
def Json.indexable : Json → Bool
  | Json.obj _ => true
  | Json.null => true
  | _ => false

/-- The governance params path rewritten by the genesis step. -/
def govParamsPath : List String := ["app_state", "gov", "params"]

/-- Step 7 of handleChainSetup: the jq program
`.app_state.gov.params.max_deposit_period = "600s" |
 .app_state.gov.params.voting_period = "600s" |
 .app_state.gov.params.expedited_voting_period = "300s"`
applied to the genesis document (on success the output is written back over
genesis.json by step 8). -/
def modifyGenesis (g : Json) : Except String Json :=
  match setPath g (govParamsPath ++ ["max_deposit_period"]) (Json.str "600s") with
  | Except.error e => Except.error e
  | Except.ok g1 =>
    match setPath g1 (govParamsPath ++ ["voting_period"]) (Json.str "600s") with
    | Except.error e => Except.error e
    | Except.ok g2 =>
      setPath g2 (govParamsPath ++ ["expedited_voting_period"]) (Json.str "300s")

/-- Two key paths diverge when they disagree at some position that both
reach: a reading at a path divergent from a written path is untouched by the
write. -/
def divergesFrom : List String → List String → Bool
  | a :: q, b :: p => a ≠ b || divergesFrom q p
  | _, _ => false

/-- Modelled from the spec: one proposal entry as reported by the REST
endpoint `GET {endpoint}/cosmos/gov/v1/proposals` (spec section 6). The Go
source of the monitor loop (the monitor-proposals subcommand of the
junction-bridge variant described in the README) is not in the repository
snapshot; timestamps are modelled as integer seconds, with comparison to
current time as the spec prescribes. -/
structure ProposalStatusEntry where
  id : String
  status : String
  votingStartTime : Int
  votingEndTime : Int
  deriving DecidableEq, Repr

/-- Modelled from the spec: the outcome of one fetch of the proposal list
(spec section 4.6: a fetch error is reported and the loop continues). -/
inductive FetchResult where
  | fetchError (msg : String)
  | proposals (entries : List ProposalStatusEntry)

/-- Modelled from the spec: the voting-period-end test of the monitor loop —
a proposal whose status is the voting-period status and whose reported end
timestamp lies strictly in the past. -/
def votingPeriodOver (now : Int) (p : ProposalStatusEntry) : Bool :=
  p.status = "PROPOSAL_STATUS_VOTING_PERIOD" && p.votingEndTime < now

/-- Modelled from the spec: the per-tick detection step of the monitor loop.
A failed fetch never detects (the error is reported and the loop continues). -/
def monitorDetects (now : Int) : FetchResult → Bool
  | FetchResult.fetchError _ => false
  | FetchResult.proposals entries => entries.any (votingPeriodOver now)

/-- Modelled from the spec: the monitor loop over a finite trace of ticks,
each tick carrying the current time and that fetch. The result is the index
of the tick at which the loop rendered the completion state and terminated,
or none when the trace ended with the loop still polling. -/
def monitorRun : List (Int × FetchResult) → Option Nat
  | [] => none
  | (now, fr) :: rest =>
      if monitorDetects now fr then some 0
      else (monitorRun rest).map (· + 1)

/-! Helper lemmas shared by the claim theorems. -/

theorem lookupField_setField (fields : List (String × Json)) (k : String)
    (v : Json) (q : String) :
    lookupField (setField fields k v) q =
      if q = k then some v else lookupField fields q := by
  induction fields with
  | nil =>
    simp only [setField, lookupField]
    by_cases h : q = k
    · subst h; simp
    · rw [if_neg (fun hh => h hh.symm), if_neg h]
  | cons kv rest ih =>
    obtain ⟨a, w⟩ := kv
    simp only [setField]
    by_cases hak : a = k
    · subst hak
      rw [if_pos rfl]
      by_cases hq : q = a
      · subst hq; simp [lookupField]
      · simp only [lookupField]
        rw [if_neg (fun hh => hq hh.symm), if_neg hq,
          if_neg (fun hh => hq hh.symm)]
    · rw [if_neg hak]
      by_cases haq : a = q
      · subst haq; simp [lookupField, hak]
      · simp [lookupField, haq, ih]

theorem getPath_append (g : Json) (p q : List String) :
    getPath g (p ++ q) = Option.bind (getPath g p) (fun h => getPath h q) := by
  induction p generalizing g with
  | nil => simp [getPath]
  | cons key rest ih =>
    cases g with
    | obj fields =>
      simp only [List.cons_append, getPath]
      cases lookupField fields key with
      | none => simp
      | some child => simpa using ih child
    | null => simp [getPath]
    | bool b => simp [getPath]
    | num n => simp [getPath]
    | str s => simp [getPath]
    | arr elems => simp [getPath]

theorem setPath_append_key (path : List String) (g : Json)
    (ps : List (String × Json)) (k : String) (v : Json)
    (h : getPath g path = some (Json.obj ps)) :
    ∃ g2, setPath g (path ++ [k]) v = Except.ok g2 ∧
      getPath g2 path = some (Json.obj (setField ps k v)) := by
  induction path generalizing g ps with
  | nil =>
    simp only [getPath, Option.some.injEq] at h
    subst h
    exact ⟨Json.obj (setField ps k v), by simp [setPath], by simp [getPath]⟩
  | cons key rest ih =>
    cases g with
    | obj fields =>
      simp only [getPath] at h
      cases hl : lookupField fields key with
      | none => rw [hl] at h; exact absurd h (by simp)
      | some child =>
        rw [hl] at h
        obtain ⟨g2, hset, hget⟩ := ih child ps h
        refine ⟨Json.obj (setField fields key g2), ?_, ?_⟩
        · simp [setPath, hl, hset]
        · simp [getPath, lookupField_setField, hget]
    | null => exact absurd h (by simp [getPath])
    | bool b => exact absurd h (by simp [getPath])
    | num n => exact absurd h (by simp [getPath])
    | str s => exact absurd h (by simp [getPath])
    | arr elems => exact absurd h (by simp [getPath])

theorem getPath_setPath_divergent (path : List String) (g g2 v : Json)
    (q : List String) (hset : setPath g path v = Except.ok g2)
    (hdiv : divergesFrom q path = true) :
    getPath g2 q = getPath g q := by
  induction path generalizing g g2 q with
  | nil => simp [divergesFrom] at hdiv
  | cons key rest ih =>
    cases q with
    | nil => simp [divergesFrom] at hdiv
    | cons a q2 =>
      simp only [divergesFrom, Bool.or_eq_true, decide_eq_true_eq] at hdiv
      cases g with
      | obj fields =>
        simp only [setPath] at hset
        cases hinner : setPath ((lookupField fields key).getD Json.null) rest v with
        | error e => rw [hinner] at hset; exact absurd hset (by simp)
        | ok inner =>
          rw [hinner] at hset
          simp only [Except.ok.injEq] at hset
          subst hset
          by_cases hak : a = key
          · subst hak
            rcases hdiv with hne | hq2
            · exact absurd rfl hne
            cases hl : lookupField fields a with
            | none =>
              rw [hl] at hinner
              simp only [Option.getD_none] at hinner
              have hnull := ih Json.null inner q2 hinner hq2
              cases q2 with
              | nil => simp [divergesFrom] at hq2
              | cons b q3 =>
                have hz : getPath inner (b :: q3) = none := hnull.trans rfl
                simp only [getPath, lookupField_setField, if_pos rfl, hl]
                exact hz
            | some child =>
              rw [hl] at hinner
              simp only [Option.getD_some] at hinner
              simp [getPath, lookupField_setField, hl, ih child inner q2 hinner hq2]
          · simp [getPath, lookupField_setField, hak]
      | null =>
        simp only [setPath] at hset
        cases hinner : setPath Json.null rest v with
        | error e => rw [hinner] at hset; exact absurd hset (by simp)
        | ok inner =>
          rw [hinner] at hset
          simp only [Except.ok.injEq] at hset
          subst hset
          by_cases hak : a = key
          · subst hak
            rcases hdiv with hne | hq2
            · exact absurd rfl hne
            have hnull := ih Json.null inner q2 hinner hq2
            cases q2 with
            | nil => simp [divergesFrom] at hq2
            | cons b q3 =>
              have hz : getPath inner (b :: q3) = none := hnull.trans rfl
              simp only [getPath, lookupField, if_pos rfl]
              exact hz
          · have hka : ¬ key = a := fun hh => hak hh.symm
            simp [getPath, lookupField, hka]
      | bool b => simp [setPath] at hset
      | num n => simp [setPath] at hset
      | str s => simp [setPath] at hset
      | arr elems => simp [setPath] at hset

theorem divergesFrom_append (q p ext : List String)
    (h : divergesFrom q p = true) : divergesFrom q (p ++ ext) = true := by
  induction q generalizing p with
  | nil => cases p <;> simp [divergesFrom] at h
  | cons a q2 ih =>
    cases p with
    | nil => simp [divergesFrom] at h
    | cons b p2 =>
      simp only [divergesFrom, Bool.or_eq_true] at h ⊢
      rcases h with hne | hrest
      · exact Or.inl hne
      · exact Or.inr (ih p2 hrest)

theorem getLast_append_single (l : List Event) (a : Event) :
    (l ++ [a]).getLast? = some a := by
  induction l with
  | nil => rfl
  | cons b rest ih => rw [List.cons_append, List.getLast?_cons, ih]; rfl

theorem getPath_snoc_obj (g : Json) (p : List String) (k : String) (v : Json)
    (h : getPath g (p ++ [k]) = some v) :
    ∃ fields, getPath g p = some (Json.obj fields) ∧
      lookupField fields k = some v := by
  rw [getPath_append] at h
  cases hg : getPath g p with
  | none => rw [hg] at h; exact absurd h (by simp)
  | some j =>
    rw [hg] at h
    simp only [Option.some_bind] at h
    cases j with
    | obj fields =>
      refine ⟨fields, rfl, ?_⟩
      simp only [getPath] at h
      cases hl : lookupField fields k with
      | none => rw [hl] at h; exact absurd h (by simp)
      | some c =>
        rw [hl] at h
        simpa [getPath] using h
    | null => exact absurd h (by simp [getPath])
    | bool b => exact absurd h (by simp [getPath])
    | num n => exact absurd h (by simp [getPath])
    | str s => exact absurd h (by simp [getPath])
    | arr es => exact absurd h (by simp [getPath])

theorem setPath_ok_of_spine (path : List String) (g v : Json)
    (h : ∀ p q j, p ++ q = path → q ≠ [] → getPath g p = some j →
      j.indexable = true) :
    ∃ g2, setPath g path v = Except.ok g2 ∧ getPath g2 path = some v := by
  induction path generalizing g with
  | nil => exact ⟨v, rfl, rfl⟩
  | cons key rest ih =>
    have hg : Json.indexable g = true :=
      h [] (key :: rest) g rfl (by simp) rfl
    have hnullhyp : ∀ p q j, p ++ q = rest → q ≠ [] →
        getPath Json.null p = some j → j.indexable = true := by
      intro p q j hpq hq hget
      cases p with
      | nil =>
        simp only [getPath, Option.some.injEq] at hget
        subst hget; rfl
      | cons a p2 => simp [getPath] at hget
    cases g with
    | obj fields =>
      cases hl : lookupField fields key with
      | some child =>
        have hchild : ∀ p q j, p ++ q = rest → q ≠ [] →
            getPath child p = some j → j.indexable = true := by
          intro p q j hpq hq hget
          refine h (key :: p) q j (by simp [hpq]) hq ?_
          simp [getPath, hl, hget]
        obtain ⟨g2, hset, hget⟩ := ih child hchild
        exact ⟨Json.obj (setField fields key g2),
          by simp [setPath, hl, hset],
          by simp [getPath, lookupField_setField, hget]⟩
      | none =>
        obtain ⟨g2, hset, hget⟩ := ih Json.null hnullhyp
        exact ⟨Json.obj (setField fields key g2),
          by simp [setPath, hl, hset],
          by simp [getPath, lookupField_setField, hget]⟩
    | null =>
      obtain ⟨g2, hset, hget⟩ := ih Json.null hnullhyp
      exact ⟨Json.obj [(key, g2)],
        by simp [setPath, hset],
        by simp [getPath, lookupField, hget]⟩
    | bool b => simp [Json.indexable] at hg
    | num n => simp [Json.indexable] at hg
    | str s => simp [Json.indexable] at hg
    | arr es => simp [Json.indexable] at hg

theorem setPath_error_of_bad_value (p : List String) (q : List String)
    (path : List String) (g j v : Json) (hsplit : p ++ q = path)
    (hq : q ≠ []) (hget : getPath g p = some j)
    (hbad : j.indexable = false) :
    ∃ e, setPath g path v = Except.error e := by
  induction p generalizing g path with
  | nil =>
    simp only [List.nil_append] at hsplit
    subst hsplit
    cases q with
    | nil => exact absurd rfl hq
    | cons key rest =>
      simp only [getPath, Option.some.injEq] at hget
      subst hget
      cases g with
      | obj fields => simp [Json.indexable] at hbad
      | null => simp [Json.indexable] at hbad
      | bool b => exact ⟨_, rfl⟩
      | num n => exact ⟨_, rfl⟩
      | str s => exact ⟨_, rfl⟩
      | arr es => exact ⟨_, rfl⟩
  | cons a p2 ih =>
    simp only [List.cons_append] at hsplit
    subst hsplit
    cases g with
    | obj fields =>
      simp only [getPath] at hget
      cases hl : lookupField fields a with
      | none => rw [hl] at hget; exact absurd hget (by simp)
      | some child =>
        rw [hl] at hget
        obtain ⟨e, herr⟩ := ih (p2 ++ q) child rfl hget
        exact ⟨e, by simp [setPath, hl, herr]⟩
    | null => simp [getPath] at hget
    | bool b => simp [getPath] at hget
    | num n => simp [getPath] at hget
    | str s => simp [getPath] at hget
    | arr es => simp [getPath] at hget

/-! The claim theorems. -/

/-- C4 counterexample: loadState on an unparseable testing_state.json does
NOT return the fresh-start default record claimed — the json.Unmarshal error
is discarded and the zero-valued record (empty phase) is returned, which
differs from the phase-"setup" record returned for a missing file. -/
theorem loadState_corrupt_counterexample :
    (loadState FileRead.unparseable).phase ≠ "setup" ∧
    loadState FileRead.unparseable ≠ loadState FileRead.absent := by
  exact ⟨by decide, by decide⟩

/-- C4 (amended): loadState never fails: a missing file yields the record
with phase "setup" and zero values elsewhere, an unparseable file yields the
zero-valued record with empty phase (not "setup"), and in both cases main
dispatches to the setup sequence because neither phase equals
"proposal_submission". -/
theorem loadState_never_fatal :
    loadState FileRead.absent = { TestingState.zero with phase := "setup" } ∧
    loadState FileRead.unparseable = TestingState.zero ∧
    mainDispatch (loadState FileRead.absent) = Dispatch.chainSetup ∧
    mainDispatch (loadState FileRead.unparseable) = Dispatch.chainSetup := by
  exact ⟨rfl, rfl, by decide, by decide⟩

/-- C5: saving any TestingState record with saveState and loading the
written document back with loadState in a fresh process yields a
structurally identical record — every field round-trips unchanged. -/
theorem state_save_load_roundtrip (s : TestingState) :
    loadState (FileRead.doc (saveState s)) = s := by
  obtain ⟨ph, bw, ca, pt, psum, pd, pf, ic, pc, cr, psub⟩ := s
  simp only [loadState, saveState, TestingState.toJson, TestingState.fromJson,
    Json.lookupKey, Json.asString, Json.asBool, Json.asStringList, List.foldl,
    TestingState.mk.injEq]
  refine ⟨rfl, ?_, rfl, rfl, rfl, rfl, rfl, rfl, rfl, rfl, rfl⟩
  induction bw with
  | nil => rfl
  | cons x xs ih => simpa using ih

/-- C8: the bridge-worker string "a, b ,c" is split on commas and each entry
trimmed, producing the ordered list ["a","b","c"] in the proposal message;
empty entries are kept for a nonempty input string (splitTrim "a,,b"), and
only an entirely empty workers input produces no env-derived entries (the
interactive fallback placeholders are used instead). -/
theorem bridge_workers_split_trim :
    ((createParameterChangeProposal
        (fun k => if k = "BRIDGE_WORKERS" then "a, b ,c"
          else if k = "BRIDGE_CONTRACT_ADDRESS" then "0x1"
          else if k = "IPFS_CID" then "Qm1" else "")
        (loadConfig emptyEnv) ["", "", "", ""]).proposal.map
      (fun p => p.messages.map (fun m => m.params.bridgeWorkers)))
      = some [["a", "b", "c"]] ∧
    splitTrim "a, b ,c" = ["a", "b", "c"] ∧
    splitTrim "a,,b" = ["a", "", "b"] ∧
    ((createParameterChangeProposal
        (fun k => if k = "BRIDGE_CONTRACT_ADDRESS" then "0x1"
          else if k = "IPFS_CID" then "Qm1" else "")
        (loadConfig emptyEnv) ["", "", "", "", ""]).proposal.map
      (fun p => p.messages.map (fun m => m.params.bridgeWorkers)))
      = some [["air1abc...", "air1def...", "air1ghi..."]] := by
  exact ⟨rfl, rfl, rfl, rfl⟩

/-- C10: the ChainConfig record is computed from the process environment
before the .env file is folded in, so the config is independent of the .env
content (a key only in .env never changes Moniker, ChainID, Denom, KeyName,
Amount, ValidatorStake, GasPrices, MinimumGasPrices), while later direct
getEnv lookups do see the .env values. -/
theorem config_precedes_env_file (env0 : Env) (dotEnv : Option String) :
    (mainStartup env0 dotEnv).config = loadConfig env0 ∧
    (mainStartup env0 dotEnv).config = (mainStartup env0 none).config ∧
    (mainStartup emptyEnv
      (some "MONIKER=evil\nBRIDGE_WORKERS=a,b")).config = loadConfig emptyEnv ∧
    getEnv (mainStartup emptyEnv
      (some "MONIKER=evil\nBRIDGE_WORKERS=a,b")).envAfter
      "MONIKER" "junction-testing" = "evil" ∧
    getEnv (mainStartup emptyEnv
      (some "MONIKER=evil\nBRIDGE_WORKERS=a,b")).envAfter
      "BRIDGE_WORKERS" "" = "a,b" := by
  exact ⟨rfl, rfl, rfl, rfl, rfl⟩

/-- C1 counterexample: with VOTE_OPTION set to "banana" — not one of yes,
no, abstain, no_with_veto — the vote step does NOT reject: it invokes the
external junctiond binary with the invalid option verbatim. -/
theorem vote_env_passthrough_counterexample :
    (voteOnProposal (fun k => if k = "VOTE_OPTION" then "banana" else "")
        ["1"]).1
      = [Event.execCmd ["./build/junctiond", "tx", "gov", "vote", "1",
          "banana", "--from", "test1", "--keyring-backend", "os",
          "--chain-id", "junction", "--gas", "auto",
          "--gas-adjustment", "1.5"]] := rfl

/-- C1 (amended): only the interactive path validates the vote option — any
interactive input outside the 1-4 menu encodings of yes/no/no_with_veto/
abstain is rejected with a message and junctiond is not invoked — while a
nonempty VOTE_OPTION environment value bypasses validation and is passed
verbatim as the vote argument of the junctiond invocation. -/
theorem vote_option_validation (envI envE : Env) (idLine optLine : String)
    (restI restE : List String) (v : String)
    (hEnvI : envI "VOTE_OPTION" = "")
    (hIdI : trimSpace idLine ≠ "")
    (hOpt : trimSpace optLine ∉ (["1", "2", "3", "4"] : List String))
    (hEnvE : envE "VOTE_OPTION" = v) (hv : v ≠ "") :
    (voteOnProposal envI (idLine :: optLine :: restI)).1
        = [Event.printErr "❌ Invalid vote option"] ∧
    (voteOnProposal envE (idLine :: restE)).1.head?
        = some (Event.execCmd ["./build/junctiond", "tx", "gov", "vote",
            trimSpace idLine, v, "--from",
            getEnv envE "PROPOSER_KEY" "test1", "--keyring-backend", "os",
            "--chain-id", getEnv envE "CHAIN_ID" "junction",
            "--gas", "auto", "--gas-adjustment", "1.5"]) := by
  have h1 : trimSpace optLine ≠ "1" := by
    intro h; exact hOpt (by rw [h]; decide)
  have h2 : trimSpace optLine ≠ "2" := by
    intro h; exact hOpt (by rw [h]; decide)
  have h3 : trimSpace optLine ≠ "3" := by
    intro h; exact hOpt (by rw [h]; decide)
  have h4 : trimSpace optLine ≠ "4" := by
    intro h; exact hOpt (by rw [h]; decide)
  refine ⟨?_, ?_⟩
  · simp [voteOnProposal, readLine, getEnv, hEnvI, hIdI, h1, h2, h3, h4]
  · have hgeE : getEnv envE "VOTE_OPTION" "" = v := by
      simp [getEnv, hEnvE, hv]
    cases restE with
    | nil =>
      have hno : ¬ (trimSpace (toLower "") = "y" ∨
          trimSpace (toLower "") = "yes") := by decide
      simp [voteOnProposal, readLine, hgeE, hv, hIdI, hno]
    | cons wl rs =>
      by_cases hw : trimSpace (toLower wl) = "y" ∨ trimSpace (toLower wl) = "yes"
      · rcases hwv : waitForVotingPeriod envE rs with ⟨we, r2⟩
        simp [voteOnProposal, readLine, hgeE, hv, hIdI, hw, hwv]
      · simp [voteOnProposal, readLine, hgeE, hv, hIdI, hw]

/-- C1 witness: concrete runs exercising both halves of the amended claim. -/
theorem vote_option_validation_witness :
    emptyEnv "VOTE_OPTION" = "" ∧ trimSpace "7" ≠ "" ∧
    trimSpace "5" ∉ (["1", "2", "3", "4"] : List String) ∧
    ((voteOnProposal emptyEnv ["7", "5"]).1
        = [Event.printErr "❌ Invalid vote option"] ∧
      (voteOnProposal (fun k => if k = "VOTE_OPTION" then "no_way" else "")
          ["7"]).1.head?
        = some (Event.execCmd ["./build/junctiond", "tx", "gov", "vote",
            "7", "no_way", "--from", "test1", "--keyring-backend", "os",
            "--chain-id", "junction", "--gas", "auto",
            "--gas-adjustment", "1.5"])) := by
  refine ⟨rfl, by decide, by decide, ?_⟩
  exact vote_option_validation emptyEnv
    (fun k => if k = "VOTE_OPTION" then "no_way" else "")
    "7" "5" [] [] "no_way" rfl (by decide) (by decide) rfl (by decide)

/-- C3: on startup, a missing or non-submission-phase state file dispatches
to the chain-setup sequence; a state file in phase "proposal_submission"
dispatches to the submission sequence, which ends by deleting the session
state file for every user answer — both when the user goes on to vote and
when the user declines. -/
theorem startup_phase_dispatch (env : Env) (stA stB : TestingState)
    (stdin : List String)
    (hA : stA.phase ≠ "proposal_submission")
    (hB : stB.phase = "proposal_submission")
    (hC : stB.proposalCreated = true) :
    mainDispatch (loadState FileRead.absent) = Dispatch.chainSetup ∧
    mainDispatch stA = Dispatch.chainSetup ∧
    mainDispatch stB = Dispatch.proposalSubmission ∧
    (handleProposalSubmission env stB stdin).1.getLast?
      = some Event.clearStateEv := by
  refine ⟨by decide, by simp [mainDispatch, hA], by simp [mainDispatch, hB], ?_⟩
  rcases hsub : submitProposal env stdin with ⟨se, s1⟩
  rcases hrl : readLine s1 with ⟨vl, s2⟩
  by_cases hvy : trimSpace (toLower vl) = "y" ∨ trimSpace (toLower vl) = "yes"
  · rcases hvote : voteOnProposal env s2 with ⟨ve, s3⟩
    simp [handleProposalSubmission, hC, hsub, hrl, hvy, hvote,
      ← List.append_assoc, getLast_append_single]
  · simp [handleProposalSubmission, hC, hsub, hrl, hvy,
      ← List.append_assoc, getLast_append_single]

/-- C3 witness: a concrete submission-phase run that declines the vote. -/
theorem startup_phase_dispatch_witness :
    (TestingState.zero.phase ≠ "proposal_submission") ∧
    (TestingState.mk "proposal_submission" [] "" "" "" "" "" "" true false
        false).phase = "proposal_submission" ∧
    (mainDispatch (loadState FileRead.absent) = Dispatch.chainSetup ∧
      (handleProposalSubmission emptyEnv
        (TestingState.mk "proposal_submission" [] "" "" "" "" "" "" true false
          false) ["n", "n"]).1.getLast?
        = some Event.clearStateEv) := by
  refine ⟨by decide, rfl, ?_, ?_⟩
  · exact (startup_phase_dispatch emptyEnv TestingState.zero
      (TestingState.mk "proposal_submission" [] "" "" "" "" "" "" true false
        false) ["n", "n"] (by decide) rfl rfl).1
  · exact (startup_phase_dispatch emptyEnv TestingState.zero
      (TestingState.mk "proposal_submission" [] "" "" "" "" "" "" true false
        false) ["n", "n"] (by decide) rfl rfl).2.2.2

/-- C9 (spec-modelled): the monitor loop polls the REST endpoint once per
tick, a failed fetch never terminates it, and at the first tick whose fetch
reports a proposal in the voting-period status with an end time strictly in
the past, the loop renders completion and terminates at that very tick —
within one tick of detection. -/
theorem monitor_loop_termination (ticks : List (Int × FetchResult)) (i : Nat)
    (hi : i < ticks.length)
    (hdet : monitorDetects (ticks.get ⟨i, hi⟩).1 (ticks.get ⟨i, hi⟩).2 = true)
    (hbefore : ∀ j (hj : j < ticks.length), j < i →
        monitorDetects (ticks.get ⟨j, hj⟩).1 (ticks.get ⟨j, hj⟩).2 = false) :
    monitorRun ticks = some i ∧
    (∀ now msg, monitorDetects now (FetchResult.fetchError msg) = false) := by
  refine ⟨?_, fun now msg => rfl⟩
  induction ticks generalizing i with
  | nil => exact absurd hi (by simp)
  | cons t rest ih =>
    obtain ⟨now, fr⟩ := t
    cases i with
    | zero =>
      simp only [List.get] at hdet
      simp [monitorRun, hdet]
    | succ n =>
      have h0 : monitorDetects now fr = false := by
        have := hbefore 0 (by simp) (Nat.succ_pos n)
        simpa using this
      have hi2 : n < rest.length := by simpa using hi
      have hdet2 : monitorDetects (rest.get ⟨n, hi2⟩).1
          (rest.get ⟨n, hi2⟩).2 = true := by
        simpa using hdet
      have hbefore2 : ∀ j (hj : j < rest.length), j < n →
          monitorDetects (rest.get ⟨j, hj⟩).1 (rest.get ⟨j, hj⟩).2 = false := by
        intro j hj hjn
        have := hbefore (j + 1) (by simpa using Nat.succ_lt_succ hj)
          (Nat.succ_lt_succ hjn)
        simpa using this
      simp [monitorRun, h0, ih n hi2 hdet2 hbefore2]

/-- C9 witness: a two-tick trace, a transient fetch error then a fetch
showing a voting-period proposal already past its end time. -/
theorem monitor_loop_termination_witness :
    (1 < ([((5 : Int), FetchResult.fetchError "connection refused"),
          ((10 : Int), FetchResult.proposals
            [⟨"1", "PROPOSAL_STATUS_VOTING_PERIOD", 0, 3⟩])].length)) ∧
    monitorRun [((5 : Int), FetchResult.fetchError "connection refused"),
          ((10 : Int), FetchResult.proposals
            [⟨"1", "PROPOSAL_STATUS_VOTING_PERIOD", 0, 3⟩])] = some 1 := by
  refine ⟨by decide, ?_⟩
  exact (monitor_loop_termination
    [((5 : Int), FetchResult.fetchError "connection refused"),
     ((10 : Int), FetchResult.proposals
       [⟨"1", "PROPOSAL_STATUS_VOTING_PERIOD", 0, 3⟩])] 1
    (by decide) (by decide)
    (by
      intro j hj hj1
      have hj0 : j = 0 := by omega
      subst hj0
      rfl)).1

/-- C2: for every genesis document in which app_state.gov.params is an
object, the mutation step succeeds; afterwards the three governance timing
fields hold the configured duration strings, every other key of the params
object is unchanged, and every path that diverges from the
app_state.gov.params spine reads exactly as before. -/
theorem genesis_mutation_fields (g : Json) (ps : List (String × Json))
    (h : getPath g govParamsPath = some (Json.obj ps)) :
    ∃ g3, modifyGenesis g = Except.ok g3 ∧
      getPath g3 (govParamsPath ++ ["max_deposit_period"])
        = some (Json.str "600s") ∧
      getPath g3 (govParamsPath ++ ["voting_period"])
        = some (Json.str "600s") ∧
      getPath g3 (govParamsPath ++ ["expedited_voting_period"])
        = some (Json.str "300s") ∧
      (∀ key, key ≠ "max_deposit_period" → key ≠ "voting_period" →
        key ≠ "expedited_voting_period" →
        getPath g3 (govParamsPath ++ [key])
          = getPath g (govParamsPath ++ [key])) ∧
      (∀ q, divergesFrom q govParamsPath = true →
        getPath g3 q = getPath g q) := by
  have emv : ("max_deposit_period" : String) ≠ "voting_period" := by decide
  have eme : ("max_deposit_period" : String) ≠ "expedited_voting_period" := by
    decide
  have eve : ("voting_period" : String) ≠ "expedited_voting_period" := by
    decide
  have evm : ("voting_period" : String) ≠ "max_deposit_period" := by decide
  obtain ⟨g1, h1, hget1⟩ := setPath_append_key govParamsPath g ps
    "max_deposit_period" (Json.str "600s") h
  obtain ⟨g2, h2, hget2⟩ := setPath_append_key govParamsPath g1 _
    "voting_period" (Json.str "600s") hget1
  obtain ⟨g3, h3, hget3⟩ := setPath_append_key govParamsPath g2 _
    "expedited_voting_period" (Json.str "300s") hget2
  refine ⟨g3, ?_, ?_, ?_, ?_, ?_, ?_⟩
  · simp [modifyGenesis, h1, h2, h3]
  · rw [getPath_append, hget3]
    simp [getPath, lookupField_setField, emv, eme]
  · rw [getPath_append, hget3]
    simp [getPath, lookupField_setField, eve, evm]
  · rw [getPath_append, hget3]
    simp [getPath, lookupField_setField]
  · intro key hm hvp hevp
    rw [getPath_append, hget3, getPath_append, h]
    simp [getPath, lookupField_setField, hm, hvp, hevp]
  · intro q hq
    have d1 := divergesFrom_append q govParamsPath ["max_deposit_period"] hq
    have d2 := divergesFrom_append q govParamsPath ["voting_period"] hq
    have d3 := divergesFrom_append q govParamsPath
      ["expedited_voting_period"] hq
    rw [getPath_setPath_divergent _ g2 g3 _ q h3 d3,
      getPath_setPath_divergent _ g1 g2 _ q h2 d2,
      getPath_setPath_divergent _ g g1 _ q h1 d1]

/-- C2 witness: a small genesis document with a params object holding an
existing voting_period and an unrelated quorum key, plus unrelated
app_state and top-level siblings. -/
theorem genesis_mutation_fields_witness :
    getPath (Json.obj [("app_state", Json.obj [("gov", Json.obj [("params",
        Json.obj [("voting_period", Json.str "172800s"),
          ("quorum", Json.str "0.334")])]), ("staking", Json.obj [])]),
      ("chain_id", Json.str "junction")]) govParamsPath
      = some (Json.obj [("voting_period", Json.str "172800s"),
          ("quorum", Json.str "0.334")]) ∧
    (∃ g3, modifyGenesis (Json.obj [("app_state", Json.obj [("gov",
        Json.obj [("params", Json.obj [("voting_period", Json.str "172800s"),
          ("quorum", Json.str "0.334")])]), ("staking", Json.obj [])]),
      ("chain_id", Json.str "junction")]) = Except.ok g3 ∧
      getPath g3 (govParamsPath ++ ["max_deposit_period"])
        = some (Json.str "600s") ∧
      getPath g3 (govParamsPath ++ ["voting_period"])
        = some (Json.str "600s") ∧
      getPath g3 (govParamsPath ++ ["expedited_voting_period"])
        = some (Json.str "300s") ∧
      (∀ key, key ≠ "max_deposit_period" → key ≠ "voting_period" →
        key ≠ "expedited_voting_period" →
        getPath g3 (govParamsPath ++ [key])
          = getPath (Json.obj [("app_state", Json.obj [("gov", Json.obj
              [("params", Json.obj [("voting_period", Json.str "172800s"),
                ("quorum", Json.str "0.334")])]), ("staking", Json.obj [])]),
            ("chain_id", Json.str "junction")]) (govParamsPath ++ [key])) ∧
      (∀ q, divergesFrom q govParamsPath = true →
        getPath g3 q = getPath (Json.obj [("app_state", Json.obj [("gov",
            Json.obj [("params", Json.obj [("voting_period",
              Json.str "172800s"), ("quorum", Json.str "0.334")])]),
            ("staking", Json.obj [])]),
          ("chain_id", Json.str "junction")]) q)) := by
  exact ⟨rfl, genesis_mutation_fields _ _ rfl⟩

/-- C6 counterexample: on a genesis document missing all three nested keys
(the empty object), the mutation step does NOT fail — the jq assignments
create the whole app_state.gov.params spine and succeed, so the mutated
document is written back. -/
theorem genesis_missing_keys_counterexample :
    modifyGenesis (Json.obj []) =
      Except.ok (Json.obj [("app_state", Json.obj [("gov", Json.obj
        [("params", Json.obj [("max_deposit_period", Json.str "600s"),
          ("voting_period", Json.str "600s"),
          ("expedited_voting_period", Json.str "300s")])])])]) := rfl

/-- C6 (amended): a missing key never makes the genesis-mutation step fail.
For every genesis document in which each value that exists strictly along
the app_state.gov.params spine is an object or null (anything missing, and
null, is autovivified), the step succeeds and the three fields are set; for
every document holding a value that exists strictly along the spine and is
neither an object nor null, the step fails with the jq cannot-index
error. -/
theorem genesis_autovivify_or_index_error (g g0 : Json)
    (p0 q0 : List String) (j0 : Json)
    (hgood : ∀ p q j, p ++ q = govParamsPath ++ ["max_deposit_period"] →
      q ≠ [] → getPath g p = some j → j.indexable = true)
    (hsplit : p0 ++ q0 = govParamsPath ++ ["max_deposit_period"])
    (hq0 : q0 ≠ []) (hbad : getPath g0 p0 = some j0)
    (hscalar : j0.indexable = false) :
    (∃ g3, modifyGenesis g = Except.ok g3 ∧
      getPath g3 (govParamsPath ++ ["max_deposit_period"])
        = some (Json.str "600s") ∧
      getPath g3 (govParamsPath ++ ["voting_period"])
        = some (Json.str "600s") ∧
      getPath g3 (govParamsPath ++ ["expedited_voting_period"])
        = some (Json.str "300s")) ∧
    (∃ e, modifyGenesis g0 = Except.error e) ∧
    modifyGenesis (Json.obj [("app_state", Json.str "grievance")])
      = Except.error "Cannot index string with \"gov\"" := by
  refine ⟨?_, ?_, rfl⟩
  · have emv : ("max_deposit_period" : String) ≠ "voting_period" := by decide
    have eme : ("max_deposit_period" : String) ≠ "expedited_voting_period" := by
      decide
    have eve : ("voting_period" : String) ≠ "expedited_voting_period" := by
      decide
    have evm : ("voting_period" : String) ≠ "max_deposit_period" := by decide
    obtain ⟨g1, h1, hg1⟩ := setPath_ok_of_spine
      (govParamsPath ++ ["max_deposit_period"]) g (Json.str "600s") hgood
    obtain ⟨ps1, hp1, hlk1⟩ := getPath_snoc_obj g1 govParamsPath
      "max_deposit_period" (Json.str "600s") hg1
    obtain ⟨g2, h2, hget2⟩ := setPath_append_key govParamsPath g1 ps1
      "voting_period" (Json.str "600s") hp1
    obtain ⟨g3, h3, hget3⟩ := setPath_append_key govParamsPath g2 _
      "expedited_voting_period" (Json.str "300s") hget2
    refine ⟨g3, ?_, ?_, ?_, ?_⟩
    · simp [modifyGenesis, h1, h2, h3]
    · rw [getPath_append, hget3]
      simp [getPath, lookupField_setField, emv, eme, hlk1]
    · rw [getPath_append, hget3]
      simp [getPath, lookupField_setField, eve, evm]
    · rw [getPath_append, hget3]
      simp [getPath, lookupField_setField]
  · obtain ⟨e, herr⟩ := setPath_error_of_bad_value p0 q0
      (govParamsPath ++ ["max_deposit_period"]) g0 j0 (Json.str "600s")
      hsplit hq0 hbad hscalar
    exact ⟨e, by simp [modifyGenesis, herr]⟩

/-- C6 witness: a genesis whose app_state.gov exists but is null (so gov has
no params child and params has none of the three keys) versus a genesis
whose app_state is a string. -/
theorem genesis_autovivify_witness :
    (getPath (Json.obj [("app_state", Json.obj [("gov", Json.null)])])
        ["app_state", "gov"] = some Json.null ∧
      getPath (Json.obj [("app_state", Json.str "grievance")]) ["app_state"]
        = some (Json.str "grievance") ∧
      Json.indexable (Json.str "grievance") = false) ∧
    ((∃ g3, modifyGenesis
        (Json.obj [("app_state", Json.obj [("gov", Json.null)])])
        = Except.ok g3 ∧
      getPath g3 (govParamsPath ++ ["max_deposit_period"])
        = some (Json.str "600s") ∧
      getPath g3 (govParamsPath ++ ["voting_period"])
        = some (Json.str "600s") ∧
      getPath g3 (govParamsPath ++ ["expedited_voting_period"])
        = some (Json.str "300s")) ∧
    (∃ e, modifyGenesis (Json.obj [("app_state", Json.str "grievance")])
        = Except.error e) ∧
    modifyGenesis (Json.obj [("app_state", Json.str "grievance")])
      = Except.error "Cannot index string with \"gov\"") := by
  refine ⟨⟨rfl, rfl, rfl⟩, ?_⟩
  refine genesis_autovivify_or_index_error
    (Json.obj [("app_state", Json.obj [("gov", Json.null)])])
    (Json.obj [("app_state", Json.str "grievance")])
    ["app_state"] ["gov", "params", "max_deposit_period"]
    (Json.str "grievance") ?_ rfl (by decide) rfl rfl
  intro p q j hpq hq hget
  rcases p with _ | ⟨a, p⟩
  · simp only [getPath, Option.some.injEq] at hget
    subst hget; rfl
  · simp only [List.cons_append, List.cons.injEq, govParamsPath] at hpq
    obtain ⟨rfl, hpq⟩ := hpq
    rcases p with _ | ⟨b, p⟩
    · simp only [getPath, lookupField, if_pos, Option.some.injEq] at hget
      subst hget; rfl
    · simp only [List.cons_append, List.cons.injEq] at hpq
      obtain ⟨rfl, hpq⟩ := hpq
      rcases p with _ | ⟨c, p⟩
      · simp only [getPath, lookupField, if_pos, Option.some.injEq] at hget
        subst hget; rfl
      · simp [getPath, lookupField] at hget

/-- C7: with IPFS_CID, BRIDGE_WORKERS and BRIDGE_CONTRACT_ADDRESS set in the
environment and every remaining prompt answered by an empty line, the setup
phase produces a proposal whose metadata equals "ipfs://" plus the CID and
whose message params are exactly the comma-split, trimmed workers and the
environment-supplied contract address. -/
theorem setup_env_proposal_fields (env : Env) (config : ChainConfig)
    (hcid : env "IPFS_CID" ≠ "") (hw : env "BRIDGE_WORKERS" ≠ "")
    (hc : env "BRIDGE_CONTRACT_ADDRESS" ≠ "") :
    ∃ p, (createParameterChangeProposal env config
        ["", "", "", ""]).proposal = some p ∧
      p.metadata = "ipfs://" ++ env "IPFS_CID" ∧
      p.messages.map (fun m => m.params)
        = [⟨splitTrim (env "BRIDGE_WORKERS"),
            env "BRIDGE_CONTRACT_ADDRESS"⟩] := by
  have hw2 : getEnv env "BRIDGE_WORKERS" "" = env "BRIDGE_WORKERS" := by
    simp [getEnv, hw]
  have hc2 : getEnv env "BRIDGE_CONTRACT_ADDRESS" ""
      = env "BRIDGE_CONTRACT_ADDRESS" := by
    simp [getEnv, hc]
  have hcid2 : getEnv env "IPFS_CID" "" = env "IPFS_CID" := by
    simp [getEnv, hcid]
  have ht : trimSpace "" = "" := rfl
  have hmain : (createParameterChangeProposal env config
      ["", "", "", ""]).proposal
      = some (Proposal.mk
          [ProposalMessage.mk "/junction.evmbridge.MsgUpdateParams"
            "air10d07y265gmmuvt4z0w9aw880jnsr700jszsute"
            (ProposalMsgParams.mk (splitTrim (env "BRIDGE_WORKERS"))
              (env "BRIDGE_CONTRACT_ADDRESS"))]
          ("ipfs://" ++ env "IPFS_CID") "1000000uamf"
          (getEnv env "PROPOSAL_TITLE" "Update EVM Bridge Authorized Unlockers")
          (getEnv env "PROPOSAL_SUMMARY" "This proposal aims to update the EVM bridge authorized unlockers list and add new bridge contract addresses to enhance the bridge's security and functionality.")
          true) := by
    simp [createParameterChangeProposal, readLine, hw2, hc2, hcid2,
      hw, hc, hcid, ht]
  exact ⟨_, hmain, rfl, rfl⟩

/-- C7 witness: a concrete environment carrying the three variables. -/
theorem setup_env_proposal_fields_witness :
    ((fun k => if k = "IPFS_CID" then "QmXyz"
        else if k = "BRIDGE_WORKERS" then "w1, w2"
        else if k = "BRIDGE_CONTRACT_ADDRESS" then "0xCAFE" else "")
      "IPFS_CID" ≠ "") ∧
    (∃ p, (createParameterChangeProposal
        (fun k => if k = "IPFS_CID" then "QmXyz"
          else if k = "BRIDGE_WORKERS" then "w1, w2"
          else if k = "BRIDGE_CONTRACT_ADDRESS" then "0xCAFE" else "")
        (loadConfig emptyEnv) ["", "", "", ""]).proposal = some p ∧
      p.metadata = "ipfs://" ++
        ((fun k => if k = "IPFS_CID" then "QmXyz"
          else if k = "BRIDGE_WORKERS" then "w1, w2"
          else if k = "BRIDGE_CONTRACT_ADDRESS" then "0xCAFE" else "")
          "IPFS_CID") ∧
      p.messages.map (fun m => m.params)
        = [⟨splitTrim ((fun k => if k = "IPFS_CID" then "QmXyz"
              else if k = "BRIDGE_WORKERS" then "w1, w2"
              else if k = "BRIDGE_CONTRACT_ADDRESS" then "0xCAFE" else "")
              "BRIDGE_WORKERS"),
            ((fun k => if k = "IPFS_CID" then "QmXyz"
              else if k = "BRIDGE_WORKERS" then "w1, w2"
              else if k = "BRIDGE_CONTRACT_ADDRESS" then "0xCAFE" else "")
              "BRIDGE_CONTRACT_ADDRESS")⟩]) := by
  refine ⟨by decide, ?_⟩
  exact setup_env_proposal_fields
    (fun k => if k = "IPFS_CID" then "QmXyz"
      else if k = "BRIDGE_WORKERS" then "w1, w2"
      else if k = "BRIDGE_CONTRACT_ADDRESS" then "0xCAFE" else "")
    (loadConfig emptyEnv) (by decide) (by decide) (by decide)

end JunctionBridge
